import Mathlib

/-!
Shallow embedding of the `tem-vaga` job-application automation repository.

The relational store (src/model/tracker.py) is modelled as lists of rows,
one list per table; machine-generated primary keys are modelled by a
`freshId` that exceeds every id already present.  The generic
`DBOperator.db_update(data_model_class, match_keys, update_data)` is
embedded once per model class it is invoked with (`JobApplication`,
`ApplicationFormPage`), with the Python `dict` arguments embedded as
structures of `Option` fields (a field is `some v` exactly when the key is
present in the dict).

Browser interaction (src/service/linkedin.py) is modelled by an explicit
page environment read by the code, and by an action trace recording every
click/fill the code performs.  Timestamp columns are modelled as `Nat` and
set to `0` on creation; nothing in the repository reads them back.
-/

namespace TemVaga

/-- Errors surfaced by the embedded operation: database errors
(`integrityError` for a unique-constraint violation on commit,
`multipleResults` for SQLAlchemy's `scalar_one_or_none` finding several
rows, `missingField` for Python's `TypeError` when a model constructor is
called without one of its required arguments — under `MappedAsDataclass`
every mapped column without a `default`/`default_factory`/`init=False` is
a required `__init__` argument) and Python-level errors raised by the bot
(`valueError`, `keyError`, `noSuchElement`). -/
inductive BotError where
  | integrityError
  | multipleResults
  | missingField
  | valueError (msg : String)
  | keyError (key : String)
  | noSuchElement
deriving Repr, DecidableEq

/-- Row of table `scrape_jobs` (class `ScrapeJob`). -/
structure ScrapeJob where
  id : Nat
  platform : Option String
  timestamp : Nat
deriving Repr, DecidableEq

/-- Row of table `linkedin_scrapes` (class `LinkedInScrape`). -/
structure LinkedInScrape where
  id : Nat
  scrape_job_id : Nat
  search_keywords : Option String
  search_location : Option String
  easy_apply : Bool
deriving Repr, DecidableEq

/-- Row of table `job_applications` (class `JobApplication`);
`job_url` carries a UNIQUE constraint. -/
structure JobApplication where
  id : Nat
  scrape_job_id : Nat
  company_name : Option String
  job_title : Option String
  application_date : Option Nat
  status : Option String
  job_url : String
  job_details : Option String
deriving Repr, DecidableEq

/-- Row of table `application_form_pages` (class `ApplicationFormPage`);
`(job_application_id, page_number)` carries a composite UNIQUE constraint
(`_job_page_uc`). -/
structure ApplicationFormPage where
  id : Nat
  job_application_id : Nat
  page_number : Nat
  form_page_title : Option String
  form_data : Option String
  timestamp : Nat
deriving Repr, DecidableEq

/-- Row of table `form_questions` (class `FormQuestion`). -/
structure FormQuestion where
  id : Nat
  form_page_id : Nat
  question_text : Option String
  question_type : Option String
  question_answer_id : Option Nat
  timestamp : Nat
deriving Repr, DecidableEq

/-- Row of table `question_answers` (class `QuestionAnswer`). -/
structure QuestionAnswer where
  id : Nat
  answer_text : Option String
  answer_type : Option String
  timestamp : Nat
deriving Repr, DecidableEq

/-- The relational store: one list of rows per table of tracker.py. -/
structure DBState where
  scrape_jobs : List ScrapeJob
  linkedin_scrapes : List LinkedInScrape
  job_applications : List JobApplication
  application_form_pages : List ApplicationFormPage
  form_questions : List FormQuestion
  question_answers : List QuestionAnswer
deriving Repr, DecidableEq

/-- A fresh auto-increment primary key: strictly larger than every id
already present in the table. -/
def freshId (ids : List Nat) : Nat :=
  ids.foldr max 0 + 1

/-- `dict`-valued argument of `db_update` when the model class is
`JobApplication`: a field is `some v` exactly when the corresponding
column name is a key of the Python dict.  Nullable columns carry
`Option (Option _)`: the outer layer is key presence, the inner layer is
SQL NULL. -/
structure JAFields where
  id : Option Nat := none
  scrape_job_id : Option Nat := none
  company_name : Option (Option String) := none
  job_title : Option (Option String) := none
  application_date : Option (Option Nat) := none
  status : Option (Option String) := none
  job_url : Option String := none
  job_details : Option (Option String) := none
deriving Repr, DecidableEq

/-- `select(cls).filter_by(**match_keys)` row predicate for
`JobApplication`: every present key must compare equal. -/
def jaMatches (m : JAFields) (r : JobApplication) : Bool :=
  m.id.all (fun v => decide (r.id = v)) &&
  m.scrape_job_id.all (fun v => decide (r.scrape_job_id = v)) &&
  m.company_name.all (fun v => decide (r.company_name = v)) &&
  m.job_title.all (fun v => decide (r.job_title = v)) &&
  m.application_date.all (fun v => decide (r.application_date = v)) &&
  m.status.all (fun v => decide (r.status = v)) &&
  m.job_url.all (fun v => decide (r.job_url = v)) &&
  m.job_details.all (fun v => decide (r.job_details = v))

/-- `{**match_keys, **update_data}`: the update dict's keys win. -/
def jaMergeFields (m u : JAFields) : JAFields where
  id := match u.id with | some v => some v | none => m.id
  scrape_job_id := match u.scrape_job_id with | some v => some v | none => m.scrape_job_id
  company_name := match u.company_name with | some v => some v | none => m.company_name
  job_title := match u.job_title with | some v => some v | none => m.job_title
  application_date := match u.application_date with | some v => some v | none => m.application_date
  status := match u.status with | some v => some v | none => m.status
  job_url := match u.job_url with | some v => some v | none => m.job_url
  job_details := match u.job_details with | some v => some v | none => m.job_details

/-- `setattr(existing_record, key, value)` for each present key. -/
def jaApplyUpdate (u : JAFields) (r : JobApplication) : JobApplication where
  id := u.id.getD r.id
  scrape_job_id := u.scrape_job_id.getD r.scrape_job_id
  company_name := u.company_name.getD r.company_name
  job_title := u.job_title.getD r.job_title
  application_date := u.application_date.getD r.application_date
  status := u.status.getD r.status
  job_url := u.job_url.getD r.job_url
  job_details := u.job_details.getD r.job_details

/-- `JobApplication(**new_record_data)` with the auto-generated id.
Under `MappedAsDataclass`, every column of the class except the
`init=False` primary key and the defaulted relationship `form_pages` is a
required `__init__` argument (none has a default in tracker.py), so a
merged dict lacking any of them raises `TypeError`, modelled as
`.error .missingField`.  The required `scrape_job` relationship argument
is mirrored in the model by `scrape_job_id`, which every construction
site supplies alongside it. -/
def jaConstruct (f : JAFields) (newId : Nat) : Except BotError JobApplication :=
  match f.scrape_job_id, f.company_name, f.job_title, f.application_date,
      f.status, f.job_url, f.job_details with
  | some sj, some cn, some jt, some ad, some s, some u, some jd =>
    .ok { id := newId, scrape_job_id := sj, company_name := cn, job_title := jt,
          application_date := ad, status := s, job_url := u, job_details := jd }
  | _, _, _, _, _, _, _ => .error .missingField

/-- `DBOperator.db_update(JobApplication, match_keys, update_data)`:
look the row up by `match_keys`; update it in place when found, create it
from the merged dicts when absent; `db_sync`'s commit enforces the UNIQUE
constraint on `job_url`. -/
def ja_db_update (rows : List JobApplication) (matchKeys updateData : JAFields) :
    Except BotError (List JobApplication) :=
  match rows.filter (jaMatches matchKeys) with
  | [] =>
    match jaConstruct (jaMergeFields matchKeys updateData) (freshId (rows.map (·.id))) with
    | .error e => .error e
    | .ok newRow =>
      if rows.any (fun x => decide (x.job_url = newRow.job_url)) then .error .integrityError
      else .ok (rows ++ [newRow])
  | [r] =>
    let r' := jaApplyUpdate updateData r
    if rows.any (fun x => decide (x.id ≠ r'.id) && decide (x.job_url = r'.job_url)) then
      .error .integrityError
    else .ok (rows.map (fun x => if x.id = r.id then r' else x))
  | _ :: _ :: _ => .error .multipleResults

/-- The `match_keys` dict of the scraper's upsert:
`{"job_url": job_link}` (src/service/linkedin.py, `get_jobs`). -/
def scrapeMatchKeys (link : String) : JAFields :=
  { job_url := some link }

/-- The `update_data` dict of the scraper's upsert (src/service/linkedin.py,
`get_jobs`): status "Scraped", all optional columns reset to NULL. -/
def scrapeUpdateData (sjId : Nat) (link : String) : JAFields :=
  { scrape_job_id := some sjId,
    status := some (some "Scraped"),
    company_name := some none,
    job_title := some none,
    application_date := some none,
    job_url := some link,
    job_details := some none }

/-- `dict`-valued argument of `db_update` when the model class is
`ApplicationFormPage`. -/
structure AFPFields where
  id : Option Nat := none
  job_application_id : Option Nat := none
  page_number : Option Nat := none
  form_page_title : Option (Option String) := none
  form_data : Option (Option String) := none
deriving Repr, DecidableEq

/-- `select(cls).filter_by(**match_keys)` row predicate for
`ApplicationFormPage`. -/
def afpMatches (m : AFPFields) (r : ApplicationFormPage) : Bool :=
  m.id.all (fun v => decide (r.id = v)) &&
  m.job_application_id.all (fun v => decide (r.job_application_id = v)) &&
  m.page_number.all (fun v => decide (r.page_number = v)) &&
  m.form_page_title.all (fun v => decide (r.form_page_title = v)) &&
  m.form_data.all (fun v => decide (r.form_data = v))

/-- `{**match_keys, **update_data}` for `ApplicationFormPage`. -/
def afpMergeFields (m u : AFPFields) : AFPFields where
  id := match u.id with | some v => some v | none => m.id
  job_application_id := match u.job_application_id with | some v => some v | none => m.job_application_id
  page_number := match u.page_number with | some v => some v | none => m.page_number
  form_page_title := match u.form_page_title with | some v => some v | none => m.form_page_title
  form_data := match u.form_data with | some v => some v | none => m.form_data

/-- `setattr(existing_record, key, value)` for each present key. -/
def afpApplyUpdate (u : AFPFields) (r : ApplicationFormPage) : ApplicationFormPage where
  id := u.id.getD r.id
  job_application_id := u.job_application_id.getD r.job_application_id
  page_number := u.page_number.getD r.page_number
  form_page_title := u.form_page_title.getD r.form_page_title
  form_data := u.form_data.getD r.form_data
  timestamp := r.timestamp

/-- `ApplicationFormPage(**new_record_data)` with the auto-generated id.
Under `MappedAsDataclass`, `job_application_id`, `page_number`,
`form_page_title` and `form_data` are all required `__init__` arguments —
in particular `form_data` (tracker.py line 103) has no default, although
the walker's merged dict never supplies it — so a dict lacking any of
them raises `TypeError`, modelled as `.error .missingField`.  `timestamp`
has a `default_factory` and the two relationships have defaults. -/
def afpConstruct (f : AFPFields) (newId : Nat) : Except BotError ApplicationFormPage :=
  match f.job_application_id, f.page_number, f.form_page_title, f.form_data with
  | some jid, some pn, some title, some fd =>
    .ok { id := newId, job_application_id := jid, page_number := pn,
          form_page_title := title, form_data := fd, timestamp := 0 }
  | _, _, _, _ => .error .missingField

/-- `DBOperator.db_update(ApplicationFormPage, match_keys, update_data)`;
`db_sync`'s commit enforces the composite UNIQUE constraint on
`(job_application_id, page_number)`. -/
def afp_db_update (rows : List ApplicationFormPage) (matchKeys updateData : AFPFields) :
    Except BotError (List ApplicationFormPage) :=
  match rows.filter (afpMatches matchKeys) with
  | [] =>
    match afpConstruct (afpMergeFields matchKeys updateData) (freshId (rows.map (·.id))) with
    | .error e => .error e
    | .ok newRow =>
      if rows.any (fun x =>
          decide (x.job_application_id = newRow.job_application_id) &&
          decide (x.page_number = newRow.page_number)) then .error .integrityError
      else .ok (rows ++ [newRow])
  | [r] =>
    let r' := afpApplyUpdate updateData r
    if rows.any (fun x => decide (x.id ≠ r'.id) &&
        (decide (x.job_application_id = r'.job_application_id) &&
         decide (x.page_number = r'.page_number))) then
      .error .integrityError
    else .ok (rows.map (fun x => if x.id = r.id then r' else x))
  | _ :: _ :: _ => .error .multipleResults

/-- The `match_keys` dict of the form walker's page bookkeeping
(src/service/linkedin.py, `_form_recursion`):
`{"job_application_id": app_id, "page_number": depth}`. -/
def afpMatchKeys (appId depth : Nat) : AFPFields :=
  { job_application_id := some appId, page_number := some depth }

/-- The `update_data` dict of the form walker's page bookkeeping:
`{"form_page_title": title}`. -/
def afpTitleUpdate (title : String) : AFPFields :=
  { form_page_title := some (some title) }

/-! ## The bot: page environment, actions, form walker, driver -/

/-- Contents of the `question_cache.json` file on disk; `absent` models a
missing file (`open` raises `FileNotFoundError`). -/
inductive CacheFile where
  | absent
  | present (entries : List (String × String))
deriving Repr, DecidableEq

/-- The cache-loading block of `_form_recursion`: `open` + `json.load`
inside `try`, with `except FileNotFoundError` falling back to `{}`. -/
def loadQuestionCache : CacheFile → Except BotError (List (String × String))
  | .absent => .ok []
  | .present entries => .ok entries

/-- One field-filling interaction with `raw_labels.nth(i)`. -/
inductive FieldAction where
  | clickOption (i : Nat)
  | selectOption (i : Nat) (value : String)
  | fillText (i : Nat) (value : String)
deriving Repr, DecidableEq

/-- Every page interaction the bot performs, in order. -/
inductive BotAction where
  | gotoUrl (url : String)
  | clickApplyButton
  | clickAgree
  | field (a : FieldAction)
  | clickSubmit
  | clickReview
  | clickFinalSubmit
  | clickContinue
deriving Repr, DecidableEq

/-- Replace every (left-to-right, non-overlapping) occurrence of the
non-empty pattern `p0 :: prest` by `repl` — the character-level semantics
of Python's `str.replace`.  The `fuel` counter (initially the list
length, an upper bound on the number of steps since every step consumes
at least one character) makes the recursion structural so that proofs
can evaluate the function. -/
def replaceList (p0 : Char) (prest repl : List Char) : Nat → List Char → List Char
  | 0, l => l
  | _ + 1, [] => []
  | fuel + 1, c :: rest =>
    if (p0 :: prest).isPrefixOf (c :: rest) then
      repl ++ replaceList p0 prest repl fuel ((c :: rest).drop (p0 :: prest).length)
    else c :: replaceList p0 prest repl fuel rest

/-- `s.replace(pattern, replacement)` on strings (Python `str.replace`;
replacing an empty pattern is the identity, as the code never does it). -/
def strReplace (s pattern replacement : String) : String :=
  match pattern.data with
  | [] => s
  | p0 :: prest => String.mk (replaceList p0 prest replacement.data s.data.length s.data)

/-- `inner_text().split('\n')[0]`: the prefix before the first newline. -/
def firstLine (s : String) : String :=
  String.mk (s.data.takeWhile (fun c => decide (c ≠ '\n')))

/-- `all_responses[raw_label]`: Python dict lookup; `none` models the
`KeyError` case. -/
def lookupResponse (rs : List (String × String)) (k : String) : Option String :=
  match rs.find? (fun p => decide (p.fst = k)) with
  | some p => some p.snd
  | none => none

/-- The while-loop over `raw_labels` in `_form_recursion`'s dynamic
branch (`raw_i` is the running locator index): `Upload` labels are
skipped; a `Yes` label is a binary control pair, answered by clicking
`nth(raw_i)` for "Yes", `nth(raw_i + 1)` for "No", and raising
`ValueError` for anything else, consuming two labels; a label among the
dropdown questions is answered by `select_option`; any other label is
filled as free text. -/
def fillFields (dropdownQuestions : List String) (responses : List (String × String)) :
    List String → Nat → Except BotError (List FieldAction)
  | [], _ => .ok []
  | l :: rest, i =>
    let lab := firstLine l
    if lab = "Upload" then fillFields dropdownQuestions responses rest (i + 1)
    else if lab = "Yes" then
      match lookupResponse responses lab with
      | none => .error (.keyError lab)
      | some r =>
        if r = "Yes" then
          match fillFields dropdownQuestions responses (rest.drop 1) (i + 2) with
          | .error e => .error e
          | .ok fas => .ok (.clickOption i :: fas)
        else if r = "No" then
          match fillFields dropdownQuestions responses (rest.drop 1) (i + 2) with
          | .error e => .error e
          | .ok fas => .ok (.clickOption (i + 1) :: fas)
        else .error (.valueError r)
    else if lab ∈ dropdownQuestions then
      match lookupResponse responses lab with
      | none => .error (.keyError lab)
      | some r =>
        match fillFields dropdownQuestions responses rest (i + 1) with
        | .error e => .error e
        | .ok fas => .ok (.selectOption i r :: fas)
    else
      match lookupResponse responses lab with
      | none => .error (.keyError lab)
      | some r =>
        match fillFields dropdownQuestions responses rest (i + 1) with
        | .error e => .error e
        | .ok fas => .ok (.fillText i r :: fas)
termination_by l _ => l.length
decreasing_by
  all_goals simp [List.length_drop]
  all_goals omega

/-- What the browser shows on one application-form modal page.
`titles` is `all_text_contents()` of the title locator; `labels` are the
`inner_text()`s of the raw label locators; `responses` stands for the
result of `create_responses` — that helper (like `extract_form_questions`)
is called but not defined anywhere in the repository, so, modelled from
the spec, the resolved question→answer mapping is an oracle input of the
environment.  `hasSubmit` / `hasReview` are the `count() > 0` results of
the terminal-button locators. -/
structure PageEnv where
  titles : List String
  labels : List String
  dropdownQuestions : List String
  responses : List (String × String)
  cacheFile : CacheFile
  hasSubmit : Bool
  hasReview : Bool
deriving Repr, DecidableEq

/-- Title post-processing in `_form_recursion`:
`title[0].replace('\n','').replace('  ','') if title else "Unknown"`. -/
def cleanTitle (titles : List String) : String :=
  match titles with
  | [] => "Unknown"
  | t :: _ => strReplace (strReplace t "\n" "") "  " ""

/-- `static_page_titles` of `_form_recursion`. -/
def staticPageTitles : List String :=
  ["Contact info", "Resume", "Screening questions"]

/-- Database plus the trace of page interactions performed so far. -/
structure BotState where
  db : DBState
  actions : List BotAction
deriving Repr, DecidableEq

/-- Append one page interaction to the trace. -/
def push (st : BotState) (a : BotAction) : BotState :=
  { st with actions := st.actions ++ [a] }

/-- Append the field-filling interactions to the trace. -/
def pushFields (st : BotState) (fas : List FieldAction) : BotState :=
  { st with actions := st.actions ++ fas.map BotAction.field }

/-- Write back the `application_form_pages` table. -/
def setFormPages (st : BotState) (rows : List ApplicationFormPage) : BotState :=
  { st with db := { st.db with application_form_pages := rows } }

/-- Write back the `job_applications` table. -/
def setApps (st : BotState) (rows : List JobApplication) : BotState :=
  { st with db := { st.db with job_applications := rows } }

/-- Lines 179–252 of `_form_recursion`: read and clean the page title,
upsert the `ApplicationFormPage` row keyed on
`(job_application_id, page_number=depth)`, then dispatch on the title:
"Privacy policy" clicks the agreement control; a title outside
`static_page_titles` is a dynamic question page (load the question cache,
obtain the responses, run the label-filling loop); a static title does
nothing further. -/
def pageRecordAndFill (appId : Nat) (pg : PageEnv) (depth : Nat) (st : BotState) :
    Except (BotError × BotState) BotState :=
  match afp_db_update st.db.application_form_pages (afpMatchKeys appId depth)
      (afpTitleUpdate (cleanTitle pg.titles)) with
  | .error e => .error (e, st)
  | .ok rows' =>
    if cleanTitle pg.titles = "Privacy policy" then
      .ok (push (setFormPages st rows') .clickAgree)
    else if cleanTitle pg.titles ∉ staticPageTitles then
      match loadQuestionCache pg.cacheFile with
      | .error e => .error (e, setFormPages st rows')
      | .ok _cache =>
        match fillFields pg.dropdownQuestions pg.responses pg.labels 0 with
        | .error e => .error (e, setFormPages st rows')
        | .ok fas => .ok (pushFields (setFormPages st rows') fas)
    else .ok (setFormPages st rows')

/-- `Bot._form_recursion(depth)`: after the record-and-fill phase, the
terminal dispatch: a present "Submit application" control is clicked and
the walk returns; otherwise a present "Review" control is clicked
followed by the final submit control; otherwise "Continue to next step"
is clicked and the walk recurses at `depth + 1`.  The environment
supplies the finite list of modal pages by depth; an exhausted list
stands for a failed page interaction. -/
def form_recursion (appId : Nat) : List PageEnv → Nat → BotState →
    Except (BotError × BotState) BotState
  | [], _, st => .error (.noSuchElement, st)
  | pg :: rest, depth, st =>
    match pageRecordAndFill appId pg depth st with
    | .error es => .error es
    | .ok st2 =>
      if pg.hasSubmit then .ok (push st2 .clickSubmit)
      else if pg.hasReview then .ok (push (push st2 .clickReview) .clickFinalSubmit)
      else form_recursion appId rest (depth + 1) (push st2 .clickContinue)

/-- `db_sync` on a `JobApplication` instance: write the row identified by
its primary key back (or insert it when not present). -/
def jaPut (rows : List JobApplication) (r : JobApplication) : List JobApplication :=
  if rows.any (fun x => decide (x.id = r.id)) then
    rows.map (fun x => if x.id = r.id then r else x)
  else rows ++ [r]

/-- `db_sync` on a `JobApplication` instance, with the commit enforcing
the UNIQUE constraint on `job_url` against the other rows. -/
def jaSyncUpdate (rows : List JobApplication) (r : JobApplication) :
    Except BotError (List JobApplication) :=
  if rows.any (fun x => decide (x.id ≠ r.id) && decide (x.job_url = r.job_url)) then
    .error .integrityError
  else .ok (jaPut rows r)

/-- What the browser shows for one job handled by `Bot._handle_job`:
the count of "Applied" feedback tags, the `easy_apply` flag of the
application's scrape record, the job-description text, and the form
modal pages by depth. -/
structure JobEnv where
  appliedTagsCount : Nat
  easyApply : Bool
  aboutText : String
  pages : List PageEnv
deriving Repr, DecidableEq

/-- `Bot._handle_job`: navigate to the application's `job_url`; a
non-easy-apply scrape record raises `ValueError`; when no "Applied" tag
is visible, persist the job-description text, click the apply button and
run the form walker before marking the application "Applied"; when an
"Applied" tag is visible, mark it "Applied" directly. -/
def handle_job (env : JobEnv) (app : JobApplication) (st : BotState) :
    Except (BotError × BotState) BotState :=
  if env.easyApply = false then
    .error (.valueError "Non-Easy Apply not implemented.", push st (.gotoUrl app.job_url))
  else if env.appliedTagsCount = 0 then
    match jaSyncUpdate st.db.job_applications { app with job_details := some env.aboutText } with
    | .error e => .error (e, push st (.gotoUrl app.job_url))
    | .ok rows1 =>
      match form_recursion app.id env.pages 0
          (push (setApps (push st (.gotoUrl app.job_url)) rows1) .clickApplyButton) with
      | .error es => .error es
      | .ok st2 =>
        match jaSyncUpdate st2.db.job_applications
            { app with job_details := some env.aboutText, status := some "Applied" } with
        | .error e => .error (e, st2)
        | .ok rows2 => .ok (setApps st2 rows2)
  else
    match jaSyncUpdate st.db.job_applications { app with status := some "Applied" } with
    | .error e => .error (e, push st (.gotoUrl app.job_url))
    | .ok rows2 => .ok (setApps (push st (.gotoUrl app.job_url)) rows2)

/-- The scraper loop of `JobScraper.get_jobs`: one
`db_update(JobApplication, {"job_url": link}, {...})` per link found. -/
def scrapeLoop (sjId : Nat) : List (String × String) → DBState →
    Except (BotError × DBState) DBState
  | [], st => .ok st
  | (_, link) :: restLinks, st =>
    match ja_db_update st.job_applications (scrapeMatchKeys link) (scrapeUpdateData sjId link) with
    | .error e => .error (e, st)
    | .ok rows => scrapeLoop sjId restLinks { st with job_applications := rows }

/-- `JobScraper.get_jobs`: insert a `ScrapeJob` row and a
`LinkedInScrape` row, then upsert a `JobApplication` row per job link
found by the browser search (the links are the environment input). -/
def get_jobs (st : DBState) (search_keywords search_location : String)
    (easy_apply : Bool) (job_links : List (String × String)) :
    Except (BotError × DBState) DBState :=
  scrapeLoop (freshId (st.scrape_jobs.map (·.id))) job_links
    { st with
      scrape_jobs := st.scrape_jobs ++
        [{ id := freshId (st.scrape_jobs.map (·.id)), platform := some "LinkedIn",
           timestamp := 0 }],
      linkedin_scrapes := st.linkedin_scrapes ++
        [{ id := freshId (st.linkedin_scrapes.map (·.id)),
           scrape_job_id := freshId (st.scrape_jobs.map (·.id)),
           search_keywords := some search_keywords,
           search_location := some search_location, easy_apply := easy_apply }] }

/-! ## The browser-context decorator -/

/-- Observable lifecycle events of the Playwright browser owned by
`_execute_with_playwright_context`. -/
inductive PwEvent where
  | launch
  | newContext
  | runFunc
  | close
deriving Repr, DecidableEq

/-- The `try` body of `_execute_with_playwright_context`: create the
browser context (which may fail, e.g. a missing storage-state file), then
run the wrapped function (which may return or raise). -/
def runWithContext {R : Type} (newContextResult : Except String Unit)
    (func : Except String R) : Except String R × List PwEvent :=
  match newContextResult with
  | .error e => (.error e, [])
  | .ok _ =>
    match func with
    | .error e => (.error e, [.newContext, .runFunc])
    | .ok r => (.ok r, [.newContext, .runFunc])

/-- `_execute_with_playwright_context`: launch the browser, run the
`try` body, and — on every path, by the `finally` block — close the
browser last. -/
def executeWithPlaywrightContext {R : Type} (newContextResult : Except String Unit)
    (func : Except String R) : Except String R × List PwEvent :=
  let body := runWithContext newContextResult func
  (body.fst, PwEvent.launch :: body.snd ++ [PwEvent.close])

/-! ## Invariants and helper lemmas -/

/-- Table invariant for `job_applications`: primary keys are distinct and
the UNIQUE column `job_url` has no duplicates. -/
def jaInv (rows : List JobApplication) : Prop :=
  rows.Pairwise (fun a b => a.id ≠ b.id ∧ a.job_url ≠ b.job_url)

/-- Table invariant for `application_form_pages`: primary keys are
distinct and the composite UNIQUE key `(job_application_id, page_number)`
has no duplicates. -/
def afpInv (rows : List ApplicationFormPage) : Prop :=
  rows.Pairwise (fun a b => a.id ≠ b.id ∧
    (a.job_application_id, a.page_number) ≠ (b.job_application_id, b.page_number))

/-- The database state an operation leaves behind, whether it returns or
raises (progress already committed persists across an abort). -/
def dbOut (r : Except (BotError × DBState) DBState) : DBState :=
  match r with
  | .ok st => st
  | .error (_, st) => st

/-- The bot state an operation leaves behind, whether it returns or
raises. -/
def botOut (r : Except (BotError × BotState) BotState) : BotState :=
  match r with
  | .ok st => st
  | .error (_, st) => st

/-! ### Concrete fixtures used by witnesses and counterexamples -/

/-- A scraped application row. -/
def wApp : JobApplication :=
  { id := 3, scrape_job_id := 1, company_name := none, job_title := none,
    application_date := none, status := some "Scraped",
    job_url := "https://www.linkedin.com/jobs/view/11", job_details := none }

/-- A store holding just `wApp`. -/
def wDB : DBState :=
  { scrape_jobs := [], linkedin_scrapes := [], job_applications := [wApp],
    application_form_pages := [], form_questions := [], question_answers := [] }

/-- Bot state over `wDB` with an empty action trace. -/
def wBot : BotState :=
  { db := wDB, actions := [] }

/-- Bot state over an empty store. -/
def wEmptyBot : BotState :=
  { db := { scrape_jobs := [], linkedin_scrapes := [], job_applications := [],
            application_form_pages := [], form_questions := [], question_answers := [] },
    actions := [] }

/-- A dynamic question page whose single binary field resolves to the
out-of-range answer "Maybe". -/
def wPgDyn : PageEnv :=
  { titles := ["Additional questions"], labels := ["Yes", "No"],
    dropdownQuestions := [], responses := [("Yes", "Maybe")],
    cacheFile := .absent, hasSubmit := false, hasReview := false }

/-- Job environment showing no "Applied" tag and the dynamic page. -/
def wEnvDyn : JobEnv :=
  { appliedTagsCount := 0, easyApply := true, aboutText := "About the job",
    pages := [wPgDyn] }

/-- A static "Resume" page offering a submit control. -/
def wPgStatic : PageEnv :=
  { titles := ["Resume"], labels := [], dropdownQuestions := [], responses := [],
    cacheFile := .absent, hasSubmit := true, hasReview := false }

/-- Job environment whose page already shows two "Applied" tags. -/
def wEnvApplied : JobEnv :=
  { appliedTagsCount := 2, easyApply := true, aboutText := "About the job",
    pages := [] }

/-- A pre-existing form-page row for application 3 at depth 0 (as left
behind by an earlier visit), about to be overwritten. -/
def wAfpRow0 : ApplicationFormPage :=
  { id := 1, job_application_id := 3, page_number := 0,
    form_page_title := some "Unknown", form_data := none, timestamp := 0 }

/-- Bot state whose store holds `wApp` and the pre-existing form-page row
`wAfpRow0`. -/
def wBotRow : BotState :=
  { db := { scrape_jobs := [], linkedin_scrapes := [], job_applications := [wApp],
            application_form_pages := [wAfpRow0], form_questions := [],
            question_answers := [] },
    actions := [] }

/-- `wAfpRow0` after the walker overwrites its title with "Resume". -/
def wAfpRow : ApplicationFormPage :=
  { id := 1, job_application_id := 3, page_number := 0,
    form_page_title := some "Resume", form_data := none, timestamp := 0 }

/-- The bot state after re-recording `wPgStatic` over `wBotRow`. -/
def wSt2 : BotState :=
  setFormPages wBotRow [wAfpRow]

/-- Table for the C5 counterexample: one row whose `job_url` will collide
with the row `db_update` tries to create. -/
def cexRows : List JobApplication :=
  [{ id := 1, scrape_job_id := 1, company_name := none, job_title := none,
     application_date := none, status := some "Scraped",
     job_url := "https://www.linkedin.com/jobs/view/11", job_details := none }]

theorem le_foldr_max (ids : List Nat) : ∀ i ∈ ids, i ≤ ids.foldr max 0 := by
  induction ids with
  | nil => simp
  | cons a l ih =>
    intro i hi
    rcases List.mem_cons.mp hi with rfl | hi
    · exact Nat.le_max_left _ _
    · exact Nat.le_trans (ih i hi) (Nat.le_max_right _ _)

theorem mem_lt_freshId (ids : List Nat) : ∀ i ∈ ids, i < freshId ids := by
  intro i hi
  have := le_foldr_max ids i hi
  unfold freshId
  omega

theorem jaMatches_scrapeKeys (link : String) :
    jaMatches (scrapeMatchKeys link) = fun r => decide (r.job_url = link) := by
  funext r
  simp [jaMatches, scrapeMatchKeys]

theorem afpMatches_walkerKeys (appId depth : Nat) :
    afpMatches (afpMatchKeys appId depth) =
      fun r => decide (r.job_application_id = appId) && decide (r.page_number = depth) := by
  funext r
  simp [afpMatches, afpMatchKeys]

theorem countP_key_eq_one {α β : Type} [DecidableEq β] (key : α → β) (rows : List α)
    (hpw : rows.Pairwise (fun a b => key a ≠ key b)) (r : α) (hr : r ∈ rows) :
    rows.countP (fun x => decide (key x = key r)) = 1 := by
  induction rows with
  | nil => cases hr
  | cons a l ih =>
    rcases List.pairwise_cons.mp hpw with ⟨ha, hl⟩
    rcases List.mem_cons.mp hr with rfl | hr
    · have hzero : l.countP (fun x => decide (key x = key r)) = 0 := by
        rw [List.countP_eq_zero]
        intro x hx
        simp only [decide_eq_true_eq]
        exact fun hk => ha x hx hk.symm
      simp [List.countP_cons, hzero]
    · have hne : key a ≠ key r := ha r hr
      rw [List.countP_cons]
      simp only [decide_eq_true_eq, hne, if_false]
      exact ih hl hr

/-- The scraper's upsert on a table satisfying the invariant always
succeeds, preserves the invariant, leaves exactly one row with the
matched `job_url`, and does not grow the table when a matching row
already existed. -/
theorem scrapeUpsert_spec (rows : List JobApplication) (sjId : Nat) (link : String)
    (h : jaInv rows) :
    ∃ rows',
      ja_db_update rows (scrapeMatchKeys link) (scrapeUpdateData sjId link) = .ok rows' ∧
      jaInv rows' ∧
      (rows'.filter (fun r => decide (r.job_url = link))).length = 1 ∧
      ((rows.filter (fun r => decide (r.job_url = link))).length = 1 →
        rows'.length = rows.length) := by
  unfold ja_db_update
  rw [jaMatches_scrapeKeys]
  split
  next heq =>
    -- no matching row: the create path
    have hnone : ∀ x ∈ rows, x.job_url ≠ link := by
      intro x hx
      have := List.filter_eq_nil_iff.mp heq x hx
      simpa using this
    simp only [jaConstruct, jaMergeFields, scrapeMatchKeys, scrapeUpdateData]
    have hany : (rows.any fun x => decide (x.job_url = link)) = false := by
      simp only [List.any_eq_false, decide_eq_true_eq]
      exact hnone
    simp only [hany, Bool.false_eq_true, if_false]
    refine ⟨_, rfl, ?_, ?_, ?_⟩
    · unfold jaInv at h ⊢
      refine List.pairwise_append.mpr ⟨h, by simp, ?_⟩
      intro a ha b hb
      have hb' := List.mem_singleton.mp hb
      subst hb'
      refine ⟨?_, ?_⟩
      · have hmem : a.id ∈ rows.map (·.id) := List.mem_map_of_mem _ ha
        exact Nat.ne_of_lt (mem_lt_freshId _ _ hmem)
      · exact hnone a ha
    · rw [List.filter_append, heq]
      simp
    · intro h1
      rw [heq] at h1
      simp at h1
  next r heq =>
    -- a matching row exists: the update path
    have hrf : r ∈ rows.filter (fun x => decide (x.job_url = link)) := by
      rw [heq]; exact List.mem_singleton_self r
    have hrmem : r ∈ rows := (List.mem_filter.mp hrf).1
    have hrurl : r.job_url = link := by
      have := (List.mem_filter.mp hrf).2
      simpa using this
    have hK : ∀ x ∈ rows, x.job_url = link → x = r := by
      intro x hx hxl
      have hxf : x ∈ rows.filter (fun y => decide (y.job_url = link)) :=
        List.mem_filter.mpr ⟨hx, by simpa using hxl⟩
      rw [heq] at hxf
      exact List.mem_singleton.mp hxf
    simp only [jaApplyUpdate, scrapeUpdateData, Option.getD_some, Option.getD_none]
    have hany2 : (rows.any fun x => decide (x.id ≠ r.id) && decide (x.job_url = link)) = false := by
      simp only [List.any_eq_false, Bool.and_eq_true, decide_eq_true_eq, not_and]
      intro x hx hne hurl
      exact hne (by rw [hK x hx hurl])
    simp only [hany2, Bool.false_eq_true, if_false]
    refine ⟨_, rfl, ?_, ?_, fun _ => by simp⟩
    · unfold jaInv at h ⊢
      rw [List.pairwise_map]
      refine h.imp_of_mem ?_
      intro a b ha hb hab
      rcases hab with ⟨hid1, hurl1⟩
      by_cases ha' : a.id = r.id
      · by_cases hb' : b.id = r.id
        · exact absurd (ha'.trans hb'.symm) hid1
        · rw [if_pos ha', if_neg hb']
          refine ⟨fun hEq => hb' hEq.symm, fun hbl => hb' (by rw [hK b hb hbl.symm])⟩
      · by_cases hb' : b.id = r.id
        · rw [if_neg ha', if_pos hb']
          refine ⟨fun hEq => ha' hEq, fun hal => ha' (by rw [hK a ha hal])⟩
        · rw [if_neg ha', if_neg hb']
          exact ⟨hid1, hurl1⟩
    · rw [← List.countP_eq_length_filter, List.countP_map]
      have hcg : ∀ x ∈ rows,
          ((fun y => decide (y.job_url = link)) ∘
            (fun y => if y.id = r.id then
              { id := r.id, scrape_job_id := sjId, company_name := none, job_title := none,
                application_date := none, status := some "Scraped", job_url := link,
                job_details := none } else y)) x = true ↔
          (fun y => decide (y.id = r.id)) x = true := by
        intro x hx
        dsimp only [Function.comp]
        by_cases hx' : x.id = r.id
        · rw [if_pos hx']
          simp [hx']
        · rw [if_neg hx']
          simp only [decide_eq_true_eq]
          constructor
          · intro hurl
            exact (hx' (by rw [hK x hx hurl])).elim
          · intro hid2
            exact (hx' hid2).elim
      rw [List.countP_congr hcg]
      have hid : rows.Pairwise (fun a b => a.id ≠ b.id) := by
        unfold jaInv at h
        exact h.imp (fun hab => hab.1)
      exact countP_key_eq_one (fun x => x.id) rows hid r hrmem
  next a b t heq =>
    -- `scalar_one_or_none` can only raise on a table violating the invariant
    exfalso
    have hsub : List.Sublist (rows.filter (fun x => decide (x.job_url = link))) rows :=
      List.filter_sublist rows
    have hpw : (rows.filter (fun x => decide (x.job_url = link))).Pairwise
        (fun x y => x.id ≠ y.id ∧ x.job_url ≠ y.job_url) := by
      unfold jaInv at h
      exact h.sublist hsub
    rw [heq] at hpw
    rcases List.pairwise_cons.mp hpw with ⟨hab, _⟩
    have haf : a ∈ rows.filter (fun x => decide (x.job_url = link)) := by
      rw [heq]; simp
    have hbf : b ∈ rows.filter (fun x => decide (x.job_url = link)) := by
      rw [heq]; simp
    have hau : a.job_url = link := by simpa using (List.mem_filter.mp haf).2
    have hbu : b.job_url = link := by simpa using (List.mem_filter.mp hbf).2
    exact (hab b (by simp)).2 (hau.trans hbu.symm)

/-- The form walker's page-bookkeeping upsert, on a table satisfying the
invariant that already holds a row for `(appId, depth)`, takes the update
path: it succeeds, preserves the invariant, leaves exactly one row for
the pair, gives that row the recorded title, and does not change the
table length.  (With no such row, the create path raises instead:
`form_data` is a required constructor argument the walker's merged dict
never supplies.) -/
theorem afpUpdate_spec (rows : List ApplicationFormPage) (appId depth : Nat) (title : String)
    (h : afpInv rows) (r0 : ApplicationFormPage) (hmem : r0 ∈ rows)
    (hjid : r0.job_application_id = appId) (hpn : r0.page_number = depth) :
    ∃ rows',
      afp_db_update rows (afpMatchKeys appId depth) (afpTitleUpdate title) = .ok rows' ∧
      afpInv rows' ∧
      (rows'.filter (fun x =>
        decide (x.job_application_id = appId) && decide (x.page_number = depth))).length = 1 ∧
      (∀ x ∈ rows', x.job_application_id = appId → x.page_number = depth →
        x.form_page_title = some title) ∧
      rows'.length = rows.length := by
  have hr0f : r0 ∈ rows.filter (fun x =>
      decide (x.job_application_id = appId) && decide (x.page_number = depth)) :=
    List.mem_filter.mpr ⟨hmem, by simp [hjid, hpn]⟩
  have hfe : rows.filter (fun x =>
      decide (x.job_application_id = appId) && decide (x.page_number = depth)) = [r0] := by
    cases hf : rows.filter (fun x =>
        decide (x.job_application_id = appId) && decide (x.page_number = depth)) with
    | nil =>
      rw [hf] at hr0f
      cases hr0f
    | cons a tail =>
      cases tail with
      | nil =>
        rw [hf] at hr0f
        have ha := List.mem_singleton.mp hr0f
        rw [ha]
      | cons b t =>
        exfalso
        have hsub : List.Sublist (rows.filter (fun x =>
            decide (x.job_application_id = appId) && decide (x.page_number = depth))) rows :=
          List.filter_sublist rows
        have hpw : (rows.filter (fun x =>
            decide (x.job_application_id = appId) && decide (x.page_number = depth))).Pairwise
            (fun x y => x.id ≠ y.id ∧
              (x.job_application_id, x.page_number) ≠ (y.job_application_id, y.page_number)) := by
          unfold afpInv at h
          exact h.sublist hsub
        rw [hf] at hpw
        rcases List.pairwise_cons.mp hpw with ⟨hab, _⟩
        have haf : a ∈ rows.filter (fun x =>
            decide (x.job_application_id = appId) && decide (x.page_number = depth)) := by
          rw [hf]; simp
        have hbf : b ∈ rows.filter (fun x =>
            decide (x.job_application_id = appId) && decide (x.page_number = depth)) := by
          rw [hf]; simp
        have hak := (List.mem_filter.mp haf).2
        have hbk := (List.mem_filter.mp hbf).2
        simp only [Bool.and_eq_true, decide_eq_true_eq] at hak hbk
        refine (hab b (by simp)).2 ?_
        rw [Prod.mk.injEq]
        exact ⟨hak.1.trans hbk.1.symm, hak.2.trans hbk.2.symm⟩
  have hK : ∀ x ∈ rows, x.job_application_id = appId → x.page_number = depth → x = r0 := by
    intro x hx hxa hxp
    have hxf : x ∈ rows.filter (fun y =>
        decide (y.job_application_id = appId) && decide (y.page_number = depth)) :=
      List.mem_filter.mpr ⟨hx, by simp [hxa, hxp]⟩
    rw [hfe] at hxf
    exact List.mem_singleton.mp hxf
  unfold afp_db_update
  rw [afpMatches_walkerKeys, hfe]
  dsimp only
  simp only [afpApplyUpdate, afpTitleUpdate, Option.getD_some, Option.getD_none]
  have hany2 : (rows.any fun x => decide (x.id ≠ r0.id) &&
      (decide (x.job_application_id = r0.job_application_id) &&
       decide (x.page_number = r0.page_number))) = false := by
    simp only [List.any_eq_false, Bool.and_eq_true, decide_eq_true_eq, not_and]
    intro x hx hne hj hp
    exact absurd (hK x hx (hj.trans hjid) (hp.trans hpn)) (fun hEq => hne (by rw [hEq]))
  simp only [hany2, Bool.false_eq_true, if_false]
  refine ⟨_, rfl, ?_, ?_, ?_, by simp⟩
  · unfold afpInv at h ⊢
    rw [List.pairwise_map]
    refine h.imp_of_mem ?_
    intro a b ha hb hab
    rcases hab with ⟨hid1, hkey1⟩
    by_cases ha' : a.id = r0.id
    · by_cases hb' : b.id = r0.id
      · exact absurd (ha'.trans hb'.symm) hid1
      · rw [if_pos ha', if_neg hb']
        refine ⟨fun hEq => hb' hEq.symm, ?_⟩
        intro hbl
        rw [Prod.mk.injEq] at hbl
        exact hb' (by rw [hK b hb (hbl.1.symm.trans hjid) (hbl.2.symm.trans hpn)])
    · by_cases hb' : b.id = r0.id
      · rw [if_neg ha', if_pos hb']
        refine ⟨fun hEq => ha' hEq, ?_⟩
        intro hal
        rw [Prod.mk.injEq] at hal
        exact ha' (by rw [hK a ha (hal.1.trans hjid) (hal.2.trans hpn)])
      · rw [if_neg ha', if_neg hb']
        exact ⟨hid1, hkey1⟩
  · rw [← List.countP_eq_length_filter, List.countP_map]
    have hcg : ∀ x ∈ rows,
        ((fun y => decide (y.job_application_id = appId) && decide (y.page_number = depth)) ∘
          (fun y => if y.id = r0.id then
            { id := r0.id, job_application_id := r0.job_application_id,
              page_number := r0.page_number, form_page_title := some title,
              form_data := r0.form_data, timestamp := r0.timestamp } else y)) x = true ↔
        (fun y => decide (y.id = r0.id)) x = true := by
      intro x hx
      dsimp only [Function.comp]
      by_cases hx' : x.id = r0.id
      · rw [if_pos hx']
        simp [hjid, hpn, hx']
      · rw [if_neg hx']
        simp only [Bool.and_eq_true, decide_eq_true_eq]
        constructor
        · intro hkey
          exact (hx' (by rw [hK x hx hkey.1 hkey.2])).elim
        · intro hid2
          exact (hx' hid2).elim
    rw [List.countP_congr hcg]
    have hid : rows.Pairwise (fun a b => a.id ≠ b.id) := by
      unfold afpInv at h
      exact h.imp (fun hab => hab.1)
    exact countP_key_eq_one (fun x => x.id) rows hid r0 hmem
  · intro x hx hxa hxp
    rcases List.mem_map.mp hx with ⟨y, hy, hfy⟩
    by_cases hy' : y.id = r0.id
    · rw [if_pos hy'] at hfy
      rw [← hfy]
    · rw [if_neg hy'] at hfy
      subst hfy
      exact absurd (hK y hy hxa hxp) (fun hEq => hy' (by rw [hEq]))

theorem scrapeLoop_frame (sjId : Nat) (links : List (String × String)) :
    ∀ st : DBState,
      (dbOut (scrapeLoop sjId links st)).form_questions = st.form_questions ∧
      (dbOut (scrapeLoop sjId links st)).question_answers = st.question_answers := by
  induction links with
  | nil => intro st; exact ⟨rfl, rfl⟩
  | cons hd tl ih =>
    intro st
    rcases hd with ⟨jid, link⟩
    unfold scrapeLoop
    cases hup : ja_db_update st.job_applications (scrapeMatchKeys link)
        (scrapeUpdateData sjId link) with
    | error e => exact ⟨rfl, rfl⟩
    | ok rows => exact ih { st with job_applications := rows }

theorem pageRecordAndFill_frame (appId : Nat) (pg : PageEnv) (depth : Nat) (st : BotState) :
    (botOut (pageRecordAndFill appId pg depth st)).db.form_questions = st.db.form_questions ∧
    (botOut (pageRecordAndFill appId pg depth st)).db.question_answers =
      st.db.question_answers := by
  unfold pageRecordAndFill
  cases hup : afp_db_update st.db.application_form_pages (afpMatchKeys appId depth)
      (afpTitleUpdate (cleanTitle pg.titles)) with
  | error e => exact ⟨rfl, rfl⟩
  | ok rows' =>
    dsimp only
    by_cases h1 : cleanTitle pg.titles = "Privacy policy"
    · simp only [h1, if_true, if_pos]
      exact ⟨rfl, rfl⟩
    · by_cases h2 : cleanTitle pg.titles ∈ staticPageTitles
      · rw [if_neg h1, if_neg (not_not_intro h2)]
        exact ⟨rfl, rfl⟩
      · rw [if_neg h1, if_pos h2]
        cases hcf : pg.cacheFile with
        | absent =>
          simp only [loadQuestionCache]
          cases hff : fillFields pg.dropdownQuestions pg.responses pg.labels 0 with
          | error e => exact ⟨rfl, rfl⟩
          | ok fas => exact ⟨rfl, rfl⟩
        | present entries =>
          simp only [loadQuestionCache]
          cases hff : fillFields pg.dropdownQuestions pg.responses pg.labels 0 with
          | error e => exact ⟨rfl, rfl⟩
          | ok fas => exact ⟨rfl, rfl⟩

theorem form_recursion_frame (appId : Nat) :
    ∀ (pages : List PageEnv) (depth : Nat) (st : BotState),
      (botOut (form_recursion appId pages depth st)).db.form_questions =
        st.db.form_questions ∧
      (botOut (form_recursion appId pages depth st)).db.question_answers =
        st.db.question_answers := by
  intro pages
  induction pages with
  | nil => intro depth st; exact ⟨rfl, rfl⟩
  | cons pg rest ih =>
    intro depth st
    unfold form_recursion
    cases hpr : pageRecordAndFill appId pg depth st with
    | error es =>
      have hfr := pageRecordAndFill_frame appId pg depth st
      rw [hpr] at hfr
      exact hfr
    | ok st2 =>
      have hfr := pageRecordAndFill_frame appId pg depth st
      rw [hpr] at hfr
      cases hs : pg.hasSubmit with
      | true => simpa [botOut, push] using hfr
      | false =>
        cases hr : pg.hasReview with
        | true => simpa [botOut, push] using hfr
        | false =>
          simp only [Bool.false_eq_true, if_false]
          have := ih (depth + 1) (push st2 .clickContinue)
          exact ⟨this.1.trans hfr.1, this.2.trans hfr.2⟩

theorem handle_job_frame (env : JobEnv) (app : JobApplication) (st : BotState) :
    (botOut (handle_job env app st)).db.form_questions = st.db.form_questions ∧
    (botOut (handle_job env app st)).db.question_answers = st.db.question_answers := by
  unfold handle_job
  by_cases he : env.easyApply = false
  · rw [if_pos he]
    exact ⟨rfl, rfl⟩
  · rw [if_neg he]
    by_cases hc : env.appliedTagsCount = 0
    · rw [if_pos hc]
      cases hsy : jaSyncUpdate st.db.job_applications
          { app with job_details := some env.aboutText } with
      | error e => exact ⟨rfl, rfl⟩
      | ok rows1 =>
        dsimp only
        cases hfr : form_recursion app.id env.pages 0
            (push (setApps (push st (.gotoUrl app.job_url)) rows1) .clickApplyButton) with
        | error es =>
          have hfrm := form_recursion_frame app.id env.pages 0
            (push (setApps (push st (.gotoUrl app.job_url)) rows1) .clickApplyButton)
          rw [hfr] at hfrm
          exact ⟨hfrm.1, hfrm.2⟩
        | ok st2 =>
          have hfrm := form_recursion_frame app.id env.pages 0
            (push (setApps (push st (.gotoUrl app.job_url)) rows1) .clickApplyButton)
          rw [hfr] at hfrm
          dsimp only
          cases hsy2 : jaSyncUpdate st2.db.job_applications
              { app with job_details := some env.aboutText, status := some "Applied" } with
          | error e => exact ⟨hfrm.1, hfrm.2⟩
          | ok rows2 => exact ⟨hfrm.1, hfrm.2⟩
    · rw [if_neg hc]
      cases hsy : jaSyncUpdate st.db.job_applications
          { app with status := some "Applied" } with
      | error e => exact ⟨rfl, rfl⟩
      | ok rows2 => exact ⟨rfl, rfl⟩

theorem jaPut_status (rows : List JobApplication) (r : JobApplication) :
    ∀ x ∈ jaPut rows r, x.id = r.id → x.status = r.status := by
  intro x hx hid
  unfold jaPut at hx
  by_cases hex : rows.any (fun y => decide (y.id = r.id)) = true
  · rw [if_pos hex] at hx
    rcases List.mem_map.mp hx with ⟨y, hy, hfy⟩
    by_cases hy' : y.id = r.id
    · rw [if_pos hy'] at hfy
      rw [← hfy]
    · rw [if_neg hy'] at hfy
      subst hfy
      exact absurd hid hy'
  · rw [if_neg hex] at hx
    rcases List.mem_append.mp hx with hx' | hx'
    · have hall : ∀ y ∈ rows, ¬(y.id = r.id) := by
        simp only [Bool.not_eq_true, List.any_eq_false, decide_eq_true_eq] at hex
        exact hex
      exact absurd hid (hall x hx')
    · have := List.mem_singleton.mp hx'
      subst this
      rfl

/-! ## Claim theorems -/

/-- C1: for every `job_url`, upserting a `JobApplication` twice with that
url — as the scraper's `db_update(JobApplication, {"job_url": link}, ...)`
does — leaves exactly one row with that url: the second upsert updates
the existing row (same table length) instead of creating a duplicate. -/
theorem scraper_double_upsert_unique (rows : List JobApplication) (sj1 sj2 : Nat)
    (link : String) (h : jaInv rows) :
    ∃ rows1 rows2,
      ja_db_update rows (scrapeMatchKeys link) (scrapeUpdateData sj1 link) = .ok rows1 ∧
      ja_db_update rows1 (scrapeMatchKeys link) (scrapeUpdateData sj2 link) = .ok rows2 ∧
      (rows2.filter (fun r => decide (r.job_url = link))).length = 1 ∧
      rows2.length = rows1.length ∧ jaInv rows2 := by
  rcases scrapeUpsert_spec rows sj1 link h with ⟨rows1, h1, hinv1, hcount1, _⟩
  rcases scrapeUpsert_spec rows1 sj2 link hinv1 with ⟨rows2, h2, hinv2, hcount2, hlen2⟩
  exact ⟨rows1, rows2, h1, h2, hcount2, hlen2 hcount1, hinv2⟩

/-- Witness for C1 at the empty table and a concrete link. -/
theorem scraper_double_upsert_unique_witness :
    ∃ rows1 rows2,
      ja_db_update [] (scrapeMatchKeys "https://www.linkedin.com/jobs/view/11")
        (scrapeUpdateData 1 "https://www.linkedin.com/jobs/view/11") = .ok rows1 ∧
      ja_db_update rows1 (scrapeMatchKeys "https://www.linkedin.com/jobs/view/11")
        (scrapeUpdateData 2 "https://www.linkedin.com/jobs/view/11") = .ok rows2 ∧
      (rows2.filter (fun r =>
        decide (r.job_url = "https://www.linkedin.com/jobs/view/11"))).length = 1 ∧
      rows2.length = rows1.length ∧ jaInv rows2 :=
  scraper_double_upsert_unique [] 1 2 "https://www.linkedin.com/jobs/view/11"
    List.Pairwise.nil

/-- C3: for every `(application_id, page_number)` pair, recording a form
page again when the table already holds that pair's row (re-visiting at
the same depth) takes `db_update`'s update path: it overwrites the
existing row's title rather than inserting a second row — the table
length is unchanged and exactly one row exists for the pair.  (The
walker's own first recording of a fresh pair raises `TypeError` instead
of creating the row — the C6 code bug — so the overwrite behaviour is
stated from the existing-row state.) -/
theorem form_page_revisit_overwrites (rows : List ApplicationFormPage) (appId depth : Nat)
    (t2 : String) (r0 : ApplicationFormPage) (h : afpInv rows) (hmem : r0 ∈ rows)
    (hjid : r0.job_application_id = appId) (hpn : r0.page_number = depth) :
    ∃ rows2,
      afp_db_update rows (afpMatchKeys appId depth) (afpTitleUpdate t2) = .ok rows2 ∧
      rows2.length = rows.length ∧
      (rows2.filter (fun x => decide (x.job_application_id = appId) &&
        decide (x.page_number = depth))).length = 1 ∧
      (∀ x ∈ rows2, x.job_application_id = appId → x.page_number = depth →
        x.form_page_title = some t2) ∧
      afpInv rows2 := by
  rcases afpUpdate_spec rows appId depth t2 h r0 hmem hjid hpn with
    ⟨rows2, h2, hinv2, hcount2, htitle2, hlen2⟩
  exact ⟨rows2, h2, hlen2, hcount2, htitle2, hinv2⟩

/-- Witness for C3 at the one-row table holding the pre-existing page
row of application 3, depth 0. -/
theorem form_page_revisit_overwrites_witness :
    ∃ rows2,
      afp_db_update [wAfpRow0] (afpMatchKeys 3 0) (afpTitleUpdate "Contact info") =
        .ok rows2 ∧
      rows2.length = [wAfpRow0].length ∧
      (rows2.filter (fun x => decide (x.job_application_id = 3) &&
        decide (x.page_number = 0))).length = 1 ∧
      (∀ x ∈ rows2, x.job_application_id = 3 → x.page_number = 0 →
        x.form_page_title = some "Contact info") ∧
      afpInv rows2 :=
  form_page_revisit_overwrites [wAfpRow0] 3 0 "Contact info" wAfpRow0
    (by unfold afpInv; simp) (List.mem_singleton_self wAfpRow0) rfl rfl

/-- C5 counterexample: `db_update` called with `match_keys` that match no
row (`status = "Pending"`) while the created row's `job_url` collides with
an existing row.  The unique-constraint violation surfaces as
`integrityError` — it is not resolved into an update of the conflicting
row. -/
theorem create_violation_propagates_cex :
    ja_db_update cexRows { status := some (some "Pending") }
      (scrapeUpdateData 1 "https://www.linkedin.com/jobs/view/11") =
      .error .integrityError := by
  rfl

/-- C5 amended: `db_update` never catches a constraint violation; instead
it avoids one whenever `match_keys` cover the unique key (as at every call
site in the repository): the lookup-first strategy reaches the create path
only when no conflicting row exists, so the upsert returns successfully
and uniqueness is preserved by updating the matched row in place.  A
violation raised on create (match keys not covering the unique key)
propagates as an error. -/
theorem lookup_first_upsert_no_violation (rows : List JobApplication) (sjId : Nat)
    (link : String) (h : jaInv rows) :
    ∃ rows', ja_db_update rows (scrapeMatchKeys link) (scrapeUpdateData sjId link) =
        .ok rows' ∧ jaInv rows' := by
  rcases scrapeUpsert_spec rows sjId link h with ⟨rows', h1, hinv, _, _⟩
  exact ⟨rows', h1, hinv⟩

/-- Witness for the amended C5 at the one-row table of the
counterexample, matching on the unique key itself. -/
theorem lookup_first_upsert_no_violation_witness :
    ∃ rows', ja_db_update cexRows
        (scrapeMatchKeys "https://www.linkedin.com/jobs/view/11")
        (scrapeUpdateData 2 "https://www.linkedin.com/jobs/view/11") = .ok rows' ∧
      jaInv rows' :=
  lookup_first_upsert_no_violation cexRows 2 "https://www.linkedin.com/jobs/view/11"
    (by unfold jaInv cexRows; simp)

/-- C8: when the `question_cache.json` backing file is absent, loading
the cache does not raise: the `FileNotFoundError` is caught, the load
yields an empty cache, and the page walk proceeds exactly as it would
with a present-but-empty cache. -/
theorem missing_cache_file_empty_cache :
    loadQuestionCache CacheFile.absent = .ok [] ∧
    ∀ (appId : Nat) (pg : PageEnv) (depth : Nat) (st : BotState),
      pageRecordAndFill appId { pg with cacheFile := .absent } depth st =
        pageRecordAndFill appId { pg with cacheFile := .present [] } depth st := by
  refine ⟨rfl, ?_⟩
  intro appId pg depth st
  rfl

/-- C9: the browser launched by the decorator helper is closed on every
exit path: whether context creation fails, the wrapped function raises,
or it returns, the event trace starts with the launch and ends with
exactly one close. -/
theorem browser_closed_on_all_paths {R : Type} (ncr : Except String Unit)
    (func : Except String R) :
    (executeWithPlaywrightContext ncr func).snd.head? = some PwEvent.launch ∧
    (executeWithPlaywrightContext ncr func).snd.getLast? = some PwEvent.close ∧
    (executeWithPlaywrightContext ncr func).snd.count PwEvent.close = 1 := by
  cases ncr with
  | error e =>
    refine ⟨rfl, rfl, ?_⟩
    rfl
  | ok u =>
    cases u
    cases func with
    | error e =>
      refine ⟨rfl, rfl, ?_⟩
      rfl
    | ok r =>
      refine ⟨rfl, rfl, ?_⟩
      rfl

/-- C10: no operation ever inserts a `FormQuestion` or `QuestionAnswer`
row: a whole scrape run and a whole application walk (any environment,
returning or raising) leave the `form_questions` and `question_answers`
tables unchanged. -/
theorem no_question_rows_created (st : DBState) (kw loc : String) (ea : Bool)
    (links : List (String × String)) (env : JobEnv) (app : JobApplication)
    (bst : BotState) :
    (dbOut (get_jobs st kw loc ea links)).form_questions = st.form_questions ∧
    (dbOut (get_jobs st kw loc ea links)).question_answers = st.question_answers ∧
    (botOut (handle_job env app bst)).db.form_questions = bst.db.form_questions ∧
    (botOut (handle_job env app bst)).db.question_answers = bst.db.question_answers := by
  refine ⟨?_, ?_, (handle_job_frame env app bst).1, (handle_job_frame env app bst).2⟩
  · exact (scrapeLoop_frame (freshId (st.scrape_jobs.map (·.id))) links _).1
  · exact (scrapeLoop_frame (freshId (st.scrape_jobs.map (·.id))) links _).2

/-- C4: after the record-and-fill phase of a form page, the terminal
dispatch follows this exact order: a present "Submit application" control
is clicked and the walk returns successfully; otherwise a present
"Review" control is clicked followed by the final submit control and the
walk returns successfully; otherwise "Continue to next step" is clicked
and the walk recurses on the next page at `depth + 1`. -/
theorem terminal_dispatch_order (appId : Nat) (pg : PageEnv) (rest : List PageEnv)
    (depth : Nat) (st st2 : BotState)
    (h : pageRecordAndFill appId pg depth st = .ok st2) :
    (pg.hasSubmit = true →
      form_recursion appId (pg :: rest) depth st = .ok (push st2 .clickSubmit)) ∧
    (pg.hasSubmit = false → pg.hasReview = true →
      form_recursion appId (pg :: rest) depth st =
        .ok (push (push st2 .clickReview) .clickFinalSubmit)) ∧
    (pg.hasSubmit = false → pg.hasReview = false →
      form_recursion appId (pg :: rest) depth st =
        form_recursion appId rest (depth + 1) (push st2 .clickContinue)) := by
  refine ⟨fun hs => ?_, fun hs hr => ?_, fun hs hr => ?_⟩
  · simp [form_recursion, h, hs]
  · simp [form_recursion, h, hs, hr]
  · simp [form_recursion, h, hs, hr]

/-- Witness for C4 at the "Resume" page with a submit control, over the
store already holding the page's bookkeeping row (the satisfiable update
path of the recording phase). -/
theorem terminal_dispatch_order_witness :
    (wPgStatic.hasSubmit = true →
      form_recursion 3 [wPgStatic] 0 wBotRow = .ok (push wSt2 .clickSubmit)) ∧
    (wPgStatic.hasSubmit = false → wPgStatic.hasReview = true →
      form_recursion 3 [wPgStatic] 0 wBotRow =
        .ok (push (push wSt2 .clickReview) .clickFinalSubmit)) ∧
    (wPgStatic.hasSubmit = false → wPgStatic.hasReview = false →
      form_recursion 3 [wPgStatic] 0 wBotRow =
        form_recursion 3 [] (0 + 1) (push wSt2 .clickContinue)) :=
  terminal_dispatch_order 3 wPgStatic [] 0 wBotRow wSt2 rfl

/-- C6 (code bug): a walk reaching a form page — static "Resume" title or
not — whose `(application_id, depth)` bookkeeping row does not exist yet
persists nothing and aborts: `db_update`'s create path evaluates
`ApplicationFormPage(**new_record_data)` and `form_data` (a required
dataclass `__init__` argument with no default, tracker.py line 103) is
absent from the walker's merged dict, so the constructor raises
`TypeError` before any page handling.  The claim's "persists a record and
proceeds to the terminal step" is the spec's intent, not the code's
behaviour. -/
theorem static_page_first_visit_aborts :
    pageRecordAndFill 3 wPgStatic 0 wEmptyBot =
      .error (.missingField, wEmptyBot) ∧
    form_recursion 3 [wPgStatic] 0 wEmptyBot =
      .error (.missingField, wEmptyBot) := by
  exact ⟨rfl, rfl⟩

/-- C7: an application whose job page already shows an "Applied" marker
(and whose scrape record is easy-apply) has its status set directly to
"Applied": the only page interaction is the navigation itself — the apply
control is never clicked and the form walker is never invoked (the
`application_form_pages` table is untouched). -/
theorem applied_marker_direct_status (env : JobEnv) (app : JobApplication) (st : BotState)
    (hea : env.easyApply = true)
    (hac : env.appliedTagsCount ≠ 0)
    (hurl : ∀ x ∈ st.db.job_applications, x.job_url = app.job_url → x.id = app.id) :
    handle_job env app st =
      .ok (setApps (push st (.gotoUrl app.job_url))
        (jaPut st.db.job_applications { app with status := some "Applied" })) ∧
    (∀ x ∈ jaPut st.db.job_applications { app with status := some "Applied" },
      x.id = app.id → x.status = some "Applied") ∧
    (setApps (push st (.gotoUrl app.job_url))
      (jaPut st.db.job_applications { app with status := some "Applied" })).actions =
      st.actions ++ [BotAction.gotoUrl app.job_url] ∧
    (setApps (push st (.gotoUrl app.job_url))
      (jaPut st.db.job_applications
        { app with status := some "Applied" })).db.application_form_pages =
      st.db.application_form_pages := by
  have hea' : ¬env.easyApply = false := by
    rw [hea]
    simp
  have hany : (st.db.job_applications.any fun x =>
      decide (x.id ≠ app.id) && decide (x.job_url = app.job_url)) = false := by
    simp only [List.any_eq_false, Bool.and_eq_true, decide_eq_true_eq, not_and]
    intro x hx hne hu
    exact hne (hurl x hx hu)
  refine ⟨?_, ?_, rfl, rfl⟩
  · unfold handle_job
    rw [if_neg hea', if_neg hac]
    unfold jaSyncUpdate
    dsimp only
    rw [hany]
    rfl
  · intro x hx hid
    exact jaPut_status st.db.job_applications { app with status := some "Applied" } x hx hid

/-- Witness for C7 at `wApp` whose page shows two "Applied" tags. -/
theorem applied_marker_direct_status_witness :
    handle_job wEnvApplied wApp wBot =
      .ok (setApps (push wBot (.gotoUrl wApp.job_url))
        (jaPut wBot.db.job_applications { wApp with status := some "Applied" })) ∧
    (∀ x ∈ jaPut wBot.db.job_applications { wApp with status := some "Applied" },
      x.id = wApp.id → x.status = some "Applied") ∧
    (setApps (push wBot (.gotoUrl wApp.job_url))
      (jaPut wBot.db.job_applications { wApp with status := some "Applied" })).actions =
      wBot.actions ++ [BotAction.gotoUrl wApp.job_url] ∧
    (setApps (push wBot (.gotoUrl wApp.job_url))
      (jaPut wBot.db.job_applications
        { wApp with status := some "Applied" })).db.application_form_pages =
      wBot.db.application_form_pages :=
  applied_marker_direct_status wEnvApplied wApp wBot rfl (by decide) (by decide)

/-- C2: when a binary (yes/no) field's resolved response value is outside
{"Yes","No"}, the form walker raises `ValueError`, the whole application
attempt aborts with it, and every row of this application keeps status
"Scraped" — it is never advanced to "Applied" on that run.  The page's
bookkeeping row for `(application_id, 0)` is hypothesised to exist so the
recording phase takes its faithful update path; on a fresh pair the walk
aborts even earlier, with the C6 `TypeError`, before any response is
resolved. -/
theorem invalid_binary_response_aborts (env : JobEnv) (app : JobApplication) (st : BotState)
    (pg : PageEnv) (rest : List PageEnv) (l0 : String) (ls : List String) (r : String)
    (r0 : ApplicationFormPage)
    (hea : env.easyApply = true)
    (hac : env.appliedTagsCount = 0)
    (hst : app.status = some "Scraped")
    (hurl : ∀ x ∈ st.db.job_applications, x.job_url = app.job_url → x.id = app.id)
    (hafp : afpInv st.db.application_form_pages)
    (hrow : r0 ∈ st.db.application_form_pages)
    (hrjid : r0.job_application_id = app.id)
    (hrpn : r0.page_number = 0)
    (hpages : env.pages = pg :: rest)
    (hpriv : cleanTitle pg.titles ≠ "Privacy policy")
    (hdyn : cleanTitle pg.titles ∉ staticPageTitles)
    (hlabels : pg.labels = l0 :: ls)
    (hl0 : firstLine l0 = "Yes")
    (hresp : lookupResponse pg.responses "Yes" = some r)
    (hrY : r ≠ "Yes") (hrN : r ≠ "No") :
    ∃ st', handle_job env app st = .error (.valueError r, st') ∧
      ∀ x ∈ st'.db.job_applications, x.id = app.id → x.status = some "Scraped" := by
  have hea' : ¬env.easyApply = false := by
    rw [hea]
    simp
  have hany : (st.db.job_applications.any fun x =>
      decide (x.id ≠ app.id) && decide (x.job_url = app.job_url)) = false := by
    simp only [List.any_eq_false, Bool.and_eq_true, decide_eq_true_eq, not_and]
    intro x hx hne hu
    exact hne (hurl x hx hu)
  have hfill : fillFields pg.dropdownQuestions pg.responses pg.labels 0 =
      .error (.valueError r) := by
    rw [hlabels]
    simp only [fillFields]
    rw [hl0, if_neg (by decide : ¬("Yes" : String) = "Upload"), if_pos rfl, hresp]
    dsimp only
    rw [if_neg hrY, if_neg hrN]
  have hstatus : ∀ x ∈ jaPut st.db.job_applications
      { app with job_details := some env.aboutText },
      x.id = app.id → x.status = some "Scraped" := by
    intro x hx hid
    have hxs := jaPut_status st.db.job_applications
      { app with job_details := some env.aboutText } x hx hid
    exact hxs.trans hst
  rcases afpUpdate_spec st.db.application_form_pages app.id 0 (cleanTitle pg.titles) hafp
    r0 hrow hrjid hrpn with ⟨rows', hup, _, _, _, _⟩
  have hsync : jaSyncUpdate st.db.job_applications
      { app with job_details := some env.aboutText } =
      .ok (jaPut st.db.job_applications { app with job_details := some env.aboutText }) := by
    unfold jaSyncUpdate
    dsimp only
    rw [hany]
    rfl
  unfold handle_job
  rw [if_neg hea', if_pos hac, hsync]
  dsimp only
  rw [hpages]
  simp only [form_recursion]
  unfold pageRecordAndFill
  dsimp only [push, setApps]
  rw [hup]
  dsimp only
  rw [if_neg hpriv, if_pos hdyn]
  cases hcf : pg.cacheFile with
  | absent =>
    simp only [loadQuestionCache]
    rw [hfill]
    exact ⟨_, rfl, hstatus⟩
  | present entries =>
    simp only [loadQuestionCache]
    rw [hfill]
    exact ⟨_, rfl, hstatus⟩

/-- Witness for C2 at the dynamic page whose binary field resolves to
"Maybe", over the store already holding the page's bookkeeping row. -/
theorem invalid_binary_response_aborts_witness :
    ∃ st', handle_job wEnvDyn wApp wBotRow = .error (.valueError "Maybe", st') ∧
      ∀ x ∈ st'.db.job_applications, x.id = wApp.id → x.status = some "Scraped" :=
  invalid_binary_response_aborts wEnvDyn wApp wBotRow wPgDyn [] "Yes" ["No"] "Maybe"
    wAfpRow0 rfl rfl rfl (by decide) (by unfold afpInv wBotRow; simp)
    (List.mem_singleton_self wAfpRow0) rfl rfl rfl (by decide) (by decide) rfl rfl rfl
    (by decide) (by decide)

end TemVaga
